import Mathlib

/-!
Verification of the trace-cruncher ftrace utility layer
(src/tracecruncher/ft_utils.py).

The file shallowly embeds the Python wrapper: every class becomes a
structure, every method a pure Lean function.  Calls into the external
native module (the module named ft in the source) are reified as
constructors of small call inductives, so each method returns the ordered
list of native calls it issues together with its result; a method that can
raise returns an Except value.  Python dictionaries (insertion ordered)
become association lists, Python lists become Lean lists.  Native values
the wrapper merely forwards (resolved event ids, instance directories, the
system name returned by ft.tc_event_system, the platform pointer size from
ctypes.sizeof) enter as arguments.
-/

namespace FtUtils

/-- The sentinel value the native record parser returns for an absent or
null array element; parse_record_array_field compares against it. -/
def nilSentinel : String := "(nil)"

/-- The common idiom `if size < 0: size = 10` used by both
parse_record_array_field and kprobe.add_array_arg: a negative (or omitted,
as the default is -1) size means 10. -/
def defaultSize (size : Int) : Nat :=
  if size < 0 then 10 else size.toNat

/-- The loop of parse_record_array_field: for each index starting at i,
while fuel remains, look up the sub-field named field + str(i) through the
record-parsing oracle (modelling event.parse_record_field on a fixed event
and record), stop at the first value equal to the sentinel, and collect the
values seen before it. -/
def parseLoop (parseField : String → String) (field : String) :
    Nat → Nat → List String
  | 0, _ => []
  | Nat.succ fuel, i =>
    let val := parseField (field ++ toString i)
    if val = nilSentinel then []
    else val :: parseLoop parseField field fuel (i + 1)

/-- parse_record_array_field from ft_utils.py: decode the sub-fields
field + str(i) for i = 0 .. size-1 (size defaulting to 10 when negative),
stopping at the first sentinel value.  The event and record arguments are
abstracted into the parseField oracle, since record decoding lives in the
native module. -/
def parse_record_array_field (parseField : String → String) (field : String)
    (size : Int) : List String :=
  parseLoop parseField field (defaultSize size) 0

/-- A concrete record-parsing oracle with three live elements of the array
field named a, followed by the sentinel. -/
def exampleParse : String → String := fun s =>
  if s = "a0" then "x"
  else if s = "a1" then "y"
  else if s = "a2" then "z"
  else nilSentinel

/-! ### The event class -/

/-- A native call issued by the event class: ft.enable_event or
ft.disable_event, with the optional instance and the system/event pair. -/
inductive FtEvCall
  | enableEvent (inst : Option String) (system event : String)
  | disableEvent (inst : Option String) (system event : String)
deriving DecidableEq, Repr

/-- The attributes of an event object: system, name, the bookkeeping list
of instances in which the event was enabled, and the resolved event id. -/
structure eventState where
  system : String
  name : String
  instance_list : List String
  evt_id : Int
deriving DecidableEq, Repr

/-- event.id: return int(self.evt_id). -/
def event.id (e : eventState) : Int := e.evt_id

/-- event.__init__ with static=True: resolve the id through find_event_id
(a native lookup, abstracted into the found_id argument) and raise
ValueError when it is negative; otherwise the object starts with an empty
instance_list and the resolved id. -/
def event_init_static (system name : String) (found_id : Int) :
    Except String eventState :=
  if found_id < 0 then
    Except.error ("Failed to find event " ++ system ++ "/" ++ name)
  else
    Except.ok { system := system, name := name,
                instance_list := [], evt_id := found_id }

/-- event.__init__ with static=False: no lookup, evt_id starts at -1. -/
def event_init_dynamic (system name : String) : eventState :=
  { system := system, name := name, instance_list := [], evt_id := -1 }

/-- event.enable: issue the native enable_event call (with the instance
when one is given), append top or the instance name to instance_list, and
replace the list by list(set(...)).  The Python set has no specified
iteration order; it is modelled by List.dedup, which removes duplicates,
the property the wrapper relies on. -/
def event.enable (st : eventState) (inst : Option String) :
    List FtEvCall × eventState :=
  match inst with
  | none =>
    ([FtEvCall.enableEvent none st.system st.name],
     { st with instance_list := (st.instance_list ++ ["top"]).dedup })
  | some i =>
    ([FtEvCall.enableEvent (some i) st.system st.name],
     { st with instance_list := (st.instance_list ++ [i]).dedup })

/-- event.disable: issue the native disable_event call first, then remove
top or the instance name from instance_list; list.remove raises ValueError
when the element is absent, after the native call was already made (the
call list records everything issued before the result). -/
def event.disable (st : eventState) (inst : Option String) :
    List FtEvCall × Except String eventState :=
  let key := match inst with | none => "top" | some i => i
  ([FtEvCall.disableEvent inst st.system st.name],
   if key ∈ st.instance_list then
     Except.ok { st with instance_list := st.instance_list.erase key }
   else
     Except.error ("ValueError: list.remove(x): x not in list"))

/-- One step of a client interaction with an event object: an enable or a
disable call, each with an optional instance. -/
inductive EvOp
  | enableOp (inst : Option String)
  | disableOp (inst : Option String)
deriving DecidableEq, Repr

/-- Apply one enable/disable call to the object state.  A disable that
raises leaves the object unchanged (the exception propagates before the
list is modified). -/
def applyEvOp (st : eventState) (op : EvOp) : eventState :=
  match op with
  | EvOp.enableOp i => (event.enable st i).2
  | EvOp.disableOp i =>
    match (event.disable st i).2 with
    | Except.ok st' => st'
    | Except.error _ => st

/-! ### The kprobe classes -/

/-- A native call issued during probe registration: the ft.kprobe creation
call (with its optional probe body) or the find_event_id lookup. -/
inductive FtCall
  | kprobeCreate (event : String) (function : String) (probe : Option String)
  | findEventId (system : String) (event : String)
deriving DecidableEq, Repr

/-- The attributes of a kprobe object: the system (kprobe_base sets it to
the native ft.tc_event_system()), the event name, the target function, the
insertion-ordered field dictionary, the event id and whether the native
probe handle kp has been stored. -/
structure kprobeState where
  system : String
  name : String
  func : String
  fields : List (String × String)
  evt_id : Int
  kp : Bool
deriving DecidableEq, Repr

/-- The attributes of a kretval_probe object: as kprobe_base, without a
field dictionary. -/
structure kretvalState where
  system : String
  name : String
  func : String
  evt_id : Int
  kp : Bool
deriving DecidableEq, Repr

/-- Python dict assignment d[k] = v on an insertion-ordered dictionary:
update in place when the key is present, otherwise append at the end. -/
def dictInsert (d : List (String × String)) (k v : String) :
    List (String × String) :=
  if k ∈ d.map Prod.fst then
    d.map (fun p => if p.1 = k then (k, v) else p)
  else d ++ [(k, v)]

/-- kprobe.add_raw_field: self.fields[name] = probe. -/
def add_raw_field (fields : List (String × String)) (name probe : String) :
    List (String × String) :=
  dictInsert fields name probe

/-- The probe expression built by one iteration of kprobe.add_array_arg:
+offset(+i*ptr_size($arg param_id)):param_type. -/
def array_probe (ptr_size : Nat) (offset : Int) (param_id : Nat)
    (param_type : String) (i : Nat) : String :=
  "+" ++ toString offset ++ "(+" ++ toString (i * ptr_size) ++
    "($arg" ++ toString param_id ++ ")):" ++ param_type

/-- kprobe.add_array_arg: default a negative size to 10, then for each i in
range(size) add a raw field named name + str(i) with the computed array
element probe.  ctypes.sizeof(ctypes.c_voidp) is a property of the host
platform and enters as the ptr_size argument. -/
def add_array_arg (ptr_size : Nat) (fields : List (String × String))
    (name : String) (param_id : Nat) (param_type : String)
    (offset : Int) (size : Int) : List (String × String) :=
  (List.range (defaultSize size)).foldl
    (fun fs i =>
      add_raw_field fs (name ++ toString i)
        (array_probe ptr_size offset param_id param_type i)) fields

/-- The probe body built by kprobe.register: the space separated join of
key=value over the ordered field dictionary. -/
def joinFields (fields : List (String × String)) : String :=
  String.intercalate (" ") (fields.map (fun p => p.1 ++ "=" ++ p.2))

/-- kprobe.register: issue the native ft.kprobe call with the joined probe
body first; when it succeeds (createOk), store the handle and only then
call find_event_id (native result found_id) to set evt_id; when the native
call raises, nothing further runs and the object is unchanged.  Returns
the ordered native-call list, whether an exception escaped, and the
resulting object. -/
def kprobe.register (tcSys : String) (createOk : Bool) (found_id : Int)
    (s : kprobeState) : List FtCall × Bool × kprobeState :=
  let probe := joinFields s.fields
  if createOk then
    ([FtCall.kprobeCreate s.name s.func (some probe),
      FtCall.findEventId tcSys s.name], false,
     { s with kp := true, evt_id := found_id })
  else
    ([FtCall.kprobeCreate s.name s.func (some probe)], true, s)

/-- kretval_probe.register: the native ft.kprobe call carries only the
event name and the target function, no probe body; afterwards find_event_id
sets evt_id as in kprobe.register. -/
def kretval_probe.register (tcSys : String) (createOk : Bool)
    (found_id : Int) (s : kretvalState) : List FtCall × Bool × kretvalState :=
  if createOk then
    ([FtCall.kprobeCreate s.name s.func none,
      FtCall.findEventId tcSys s.name], false,
     { s with kp := true, evt_id := found_id })
  else
    ([FtCall.kprobeCreate s.name s.func none], true, s)

/-- Is this native call the event-id lookup. -/
def isLookup : FtCall → Bool
  | FtCall.findEventId _ _ => true
  | _ => false

/-- Is this native call the write to the kernel dynamic-probe interface. -/
def isProbeWrite : FtCall → Bool
  | FtCall.kprobeCreate _ _ _ => true
  | _ => false

/-- In an ordered call list, every event-id lookup is strictly preceded by
a dynamic-probe write. -/
def writeBeforeLookup (tr : List FtCall) : Prop :=
  ∀ pre c post, tr = pre ++ c :: post → isLookup c = true →
    ∃ c' ∈ pre, isProbeWrite c' = true

/-! ### The khist class -/

/-- A native call issued by the khist class: instance lookup or creation,
the ft.hist builder calls, the trigger control commands (stop writes the
pause command, resume the continue command, clear the reset command) and
the attach/detach bookkeeping calls. -/
inductive HistCall
  | findInstance (name : String)
  | createInstance (name : String)
  | histNew (name system event : String) (axes : List String)
  | addValue (v : String)
  | sortKeysCall (keys : List String)
  | sortKeyDir (key dir : String)
  | histStop
  | histResume
  | histClear
  | histRead
  | ftDetach
  | ftAttach
deriving DecidableEq, Repr

/-- The histogram description accumulated by the native ft.hist builder:
name, event, axes, then values added one by one, the sort keys and the
per-key sort directions.  Modelled from the spec: the builder object lives
in the native module; this records exactly what the wrapper passes it. -/
structure histConfig where
  hname : String
  hsystem : String
  hevent : String
  axes : List String
  values : List String
  skeys : List String
  sdir : List (String × String)
deriving DecidableEq, Repr

/-- hist.add_value: append one value field. -/
def hist_add_value (h : histConfig) (v : String) : histConfig :=
  { h with values := h.values ++ [v] }

/-- hist.sort_keys: set the sort keys. -/
def hist_sort_keys (h : histConfig) (keys : List String) : histConfig :=
  { h with skeys := keys }

/-- hist.sort_key_direction: record the direction for one sort key. -/
def hist_sort_key_direction (h : histConfig) (key dir : String) : histConfig :=
  { h with sdir := h.sdir ++ [(key, dir)] }

/-- The attributes of a khist object: its name, the instance it is bound
to (None before assignment; the constructor always binds one), the
attached flag, the histogram description and the trigger file path. -/
structure khistState where
  name : String
  inst : Option String
  attached : Bool
  hist : histConfig
  trigger : String
deriving DecidableEq, Repr

/-- khist.__init__: bind the instance named name + _inst, either finding
it (find=True, attached=False) or creating it (find=False, attached=True);
build the ft.hist description from axes, weights, sort keys and sort
directions; compute the trigger path inst.dir() + /events/system/event/
trigger (inst.dir() is native, passed in as instDir); and, only when the
instance was created, put the histogram on standby by issuing the stop
(pause) command as the last step.  Returns the ordered native-call list
and the constructed object. -/
def khist_init (name : String) (ev : eventState) (axes : List String)
    (weights : List String) (sort_keys : List String)
    (sort_dir : List (String × String)) (find : Bool) (instDir : String) :
    List HistCall × khistState :=
  let inst_name := name ++ "_inst"
  let hist0 : histConfig :=
    { hname := name, hsystem := ev.system, hevent := ev.name, axes := axes,
      values := [], skeys := [], sdir := [] }
  let hist1 := weights.foldl hist_add_value hist0
  let hist2 := hist_sort_keys hist1 sort_keys
  let hist3 :=
    sort_dir.foldl (fun h p => hist_sort_key_direction h p.1 p.2) hist2
  let trigger :=
    instDir ++ "/events/" ++ ev.system ++ "/" ++ ev.name ++ "/trigger"
  let calls :=
    (if find then [HistCall.findInstance inst_name]
     else [HistCall.createInstance inst_name]) ++
    [HistCall.histNew name ev.system ev.name axes] ++
    weights.map HistCall.addValue ++
    [HistCall.sortKeysCall sort_keys] ++
    sort_dir.map (fun p => HistCall.sortKeyDir p.1 p.2) ++
    (if find then [] else [HistCall.histStop])
  (calls,
   { name := name, inst := some inst_name,
     attached := if find then false else true,
     hist := hist3, trigger := trigger })

/-- khist.__del__: when the object holds an instance and is attached,
clear the histogram; otherwise do nothing.  Returns the issued calls. -/
def khist_del (s : khistState) : List HistCall :=
  if s.inst.isSome && s.attached then [HistCall.histClear] else []

/-- khist.detach: issue the native ft.detach call and drop the attached
flag; nothing else changes. -/
def khist_detach (s : khistState) : List HistCall × khistState :=
  ([HistCall.ftDetach], { s with attached := false })

/-- khist.attach: issue the native ft.attach call and raise the attached
flag; nothing else changes. -/
def khist_attach (s : khistState) : List HistCall × khistState :=
  ([HistCall.ftAttach], { s with attached := true })

/-- khist.is_attached: return the attached flag. -/
def is_attached (s : khistState) : Bool := s.attached

/-- Modelled from the spec: the effect of the issued native calls on the
set of existing tracefs instance directories.  create_instance adds a
directory; the histogram control calls (stop, resume, clear, read), the
builder calls, find_instance and attach/detach leave the set unchanged;
no call issued by this wrapper removes an instance. -/
def instancesAfter (calls : List HistCall) (insts : List String) :
    List String :=
  calls.foldl
    (fun acc c =>
      match c with
      | HistCall.createInstance n => acc ++ [n]
      | _ => acc) insts

/-! ### Theorems -/

lemma parseLoop_eq_takeWhile (parseField : String → String) (field : String) :
    ∀ (n i : Nat),
      parseLoop parseField field n i =
        ((List.range' i n).map (fun j => parseField (field ++ toString j))).takeWhile
          (fun v => v ≠ nilSentinel)
  | 0, i => by simp [parseLoop]
  | Nat.succ n, i => by
    rw [List.range'_succ]
    simp only [List.map_cons, List.takeWhile_cons, parseLoop]
    by_cases h : parseField (field ++ toString i) = nilSentinel
    · simp [h]
    · simp [h, parseLoop_eq_takeWhile parseField field n (i + 1)]

/-- C1: for every record-parsing oracle, field name and declared size,
parse_record_array_field returns exactly the values of the sub-fields
field + str(i), i = 0 .. bound-1 with bound = 10 when size is negative
(the default) and size otherwise, truncated at and excluding the first
value equal to the sentinel string (nil); in particular with declared size
10 and three live elements followed by the sentinel the result has exactly
the three live entries. -/
theorem parse_record_array_field_spec :
    (∀ (parseField : String → String) (field : String) (size : Int),
      parse_record_array_field parseField field size =
        ((List.range (defaultSize size)).map
            (fun i => parseField (field ++ toString i))).takeWhile
          (fun v => v ≠ nilSentinel)) ∧
    parse_record_array_field exampleParse ("a") 10 = ["x", "y", "z"] ∧
    (parse_record_array_field exampleParse ("a") 10).length = 3 := by
  refine ⟨fun parseField field size => ?_, by decide, by decide⟩
  rw [parse_record_array_field, parseLoop_eq_takeWhile, List.range_eq_range']

lemma applyEvOp_nodup (st : eventState) (op : EvOp)
    (h : st.instance_list.Nodup) : (applyEvOp st op).instance_list.Nodup := by
  cases op with
  | enableOp i =>
    cases i <;> simp [applyEvOp, event.enable, List.nodup_dedup]
  | disableOp i =>
    simp only [applyEvOp, event.disable]
    split
    · next st' heq =>
      split at heq
      · cases heq
        exact h.erase _
      · exact absurd heq (by simp)
    · exact h

/-- C9: starting from a freshly constructed event object (whose
instance_list is empty), any sequence of enable and disable calls leaves
instance_list without duplicates: enable deduplicates after appending and
disable only removes an entry. -/
theorem event_instance_list_nodup (system name : String) (evt_id : Int)
    (ops : List EvOp) :
    (ops.foldl applyEvOp
      { system := system, name := name,
        instance_list := [], evt_id := evt_id }).instance_list.Nodup := by
  have key : ∀ (l : List EvOp) (st : eventState), st.instance_list.Nodup →
      (l.foldl applyEvOp st).instance_list.Nodup := by
    intro l
    induction l with
    | nil => intro st h; simpa using h
    | cons op l ih =>
      intro st h
      exact ih (applyEvOp st op) (applyEvOp_nodup st op h)
  exact key ops _ (by simp)

/-- C10: disabling an event for an instance (or for the top level buffer)
that is not recorded in instance_list raises ValueError, and the native
disable call stands in the issued-call list even so: the kernel side
disable was already performed when the exception is raised. -/
theorem event_disable_absent_raises (st : eventState) (inst : Option String)
    (h : (match inst with | none => "top" | some i => i) ∉ st.instance_list) :
    event.disable st inst =
      ([FtEvCall.disableEvent inst st.system st.name],
       Except.error ("ValueError: list.remove(x): x not in list")) := by
  simp only [event.disable]
  split
  · next hmem => exact absurd hmem h
  · rfl

/-- Witness for C10 at a concrete event object with an empty
instance_list and a concrete instance name. -/
theorem event_disable_absent_raises_witness :
    event.disable
        { system := "sched", name := "sched_switch",
          instance_list := [], evt_id := 5 } (some ("foo")) =
      ([FtEvCall.disableEvent (some ("foo")) ("sched") ("sched_switch")],
       Except.error ("ValueError: list.remove(x): x not in list")) :=
  event_disable_absent_raises
    { system := "sched", name := "sched_switch",
      instance_list := [], evt_id := 5 } (some ("foo")) (by decide)

/-- C6: constructing an event with static=True either raises ValueError
(exactly when the resolved id is negative) or yields an object whose id()
is the non-negative resolved id. -/
theorem event_init_static_spec (system name : String) (found_id : Int) :
    (event_init_static system name found_id =
      if found_id < 0 then
        Except.error ("Failed to find event " ++ system ++ "/" ++ name)
      else
        Except.ok { system := system, name := name,
                    instance_list := [], evt_id := found_id }) ∧
    (match event_init_static system name found_id with
     | Except.ok st => event.id st = found_id ∧ 0 ≤ event.id st
     | Except.error e =>
        found_id < 0 ∧ e = "Failed to find event " ++ system ++ "/" ++ name) := by
  constructor
  · rfl
  · by_cases h : found_id < 0
    · simp only [event_init_static, if_pos h]
      exact ⟨h, trivial⟩
    · simp only [event_init_static, if_neg h]
      exact ⟨rfl, le_of_not_lt h⟩

lemma writeBeforeLookup_single (a : FtCall) (hla : isLookup a = false) :
    writeBeforeLookup [a] := by
  intro pre c post heq hl
  rcases pre with _ | ⟨x, pre⟩
  · rw [List.nil_append] at heq
    injection heq with h1 h2
    subst h1
    simp [hla] at hl
  · simp only [List.cons_append] at heq
    injection heq with h1 h2
    exact absurd h2 (by simp)

lemma writeBeforeLookup_pair (a b : FtCall) (ha : isProbeWrite a = true)
    (hla : isLookup a = false) : writeBeforeLookup [a, b] := by
  intro pre c post heq hl
  rcases pre with _ | ⟨x, _ | ⟨y, pre⟩⟩
  · rw [List.nil_append] at heq
    injection heq with h1 h2
    subst h1
    simp [hla] at hl
  · simp only [List.cons_append, List.nil_append] at heq
    injection heq with h1 h2
    subst h1
    exact ⟨a, by simp, ha⟩
  · simp only [List.cons_append] at heq
    injection heq with h1 h2
    injection h2 with h3 h4
    exact absurd h4 (by simp)

/-- C3: for kprobe and kretval_probe alike, register issues the native
kprobe creation strictly before any event-id lookup; when the creation
raises (createOk = false) no lookup happens, the exception escapes and
evt_id is unchanged; on success the call list is exactly the creation
followed by the lookup. -/
theorem register_write_before_lookup (tcSys : String) (createOk : Bool)
    (found_id : Int) (s : kprobeState) (r : kretvalState) :
    writeBeforeLookup (kprobe.register tcSys createOk found_id s).1 ∧
    writeBeforeLookup (kretval_probe.register tcSys createOk found_id r).1 ∧
    (kprobe.register tcSys false found_id s).2.2.evt_id = s.evt_id ∧
    (kprobe.register tcSys false found_id s).2.1 = true ∧
    (kretval_probe.register tcSys false found_id r).2.2.evt_id = r.evt_id ∧
    (kretval_probe.register tcSys false found_id r).2.1 = true ∧
    (kprobe.register tcSys true found_id s).1 =
      [FtCall.kprobeCreate s.name s.func (some (joinFields s.fields)),
       FtCall.findEventId tcSys s.name] ∧
    (kretval_probe.register tcSys true found_id r).1 =
      [FtCall.kprobeCreate r.name r.func none,
       FtCall.findEventId tcSys r.name] := by
  refine ⟨?_, ?_, rfl, rfl, rfl, rfl, rfl, rfl⟩
  · cases createOk
    · exact writeBeforeLookup_single _ rfl
    · exact writeBeforeLookup_pair _ _ rfl rfl
  · cases createOk
    · exact writeBeforeLookup_single _ rfl
    · exact writeBeforeLookup_pair _ _ rfl rfl

/-- C7: kretval_probe.register passes no probe body to the native kprobe
call (the probe argument is absent, modelled as none), while
kprobe.register passes the space separated key=value join of its ordered
field dictionary. -/
theorem kretval_register_no_probe_body (tcSys : String) (createOk : Bool)
    (found_id : Int) (s : kprobeState) (r : kretvalState) :
    (kretval_probe.register tcSys createOk found_id r).1.head? =
      some (FtCall.kprobeCreate r.name r.func none) ∧
    (kprobe.register tcSys createOk found_id s).1.head? =
      some (FtCall.kprobeCreate s.name s.func (some (joinFields s.fields))) ∧
    joinFields s.fields =
      String.intercalate (" ") (s.fields.map (fun p => p.1 ++ "=" ++ p.2)) := by
  cases createOk <;> exact ⟨rfl, rfl, rfl⟩

lemma dictInsert_fresh (d : List (String × String)) (k v : String)
    (h : k ∉ d.map Prod.fst) : dictInsert d k v = d ++ [(k, v)] := by
  rw [dictInsert, if_neg h]

lemma add_loop_append (nameFn probeFn : Nat → String) :
    ∀ (l : List Nat) (fields : List (String × String)),
      (fields.map Prod.fst ++ l.map nameFn).Nodup →
      l.foldl (fun fs i => add_raw_field fs (nameFn i) (probeFn i)) fields =
        fields ++ l.map (fun i => (nameFn i, probeFn i))
  | [], fields, _ => by simp
  | i :: l, fields, h => by
    rcases List.nodup_append.mp h with ⟨h1, h2, hd⟩
    have hfresh : nameFn i ∉ fields.map Prod.fst :=
      fun hmem => hd hmem (List.mem_cons_self _ _)
    have hnext : ((fields ++ [(nameFn i, probeFn i)]).map Prod.fst ++
        l.map nameFn).Nodup := by
      simpa [List.append_assoc] using h
    rw [List.foldl_cons, add_raw_field, dictInsert_fresh _ _ _ hfresh,
      add_loop_append nameFn probeFn l _ hnext]
    simp

/-- C2: when the sub-field names name + str(i) are fresh for the field
dictionary, add_array_arg appends exactly defaultSize size entries: 10 when
size is negative (the default -1 included) and size otherwise; the i-th
added entry is named name + str(i) and carries the probe string
+offset(+i*ptr_size($arg param_id)):param_type. -/
theorem add_array_arg_spec (ptr_size : Nat) (fields : List (String × String))
    (name : String) (param_id : Nat) (param_type : String) (offset : Int)
    (size : Int)
    (h : (fields.map Prod.fst ++
          (List.range (defaultSize size)).map
            (fun i => name ++ toString i)).Nodup) :
    add_array_arg ptr_size fields name param_id param_type offset size =
      fields ++ (List.range (defaultSize size)).map
        (fun i => (name ++ toString i,
                   array_probe ptr_size offset param_id param_type i)) ∧
    (add_array_arg ptr_size fields name param_id param_type offset
        size).length = fields.length + defaultSize size ∧
    (size < 0 → defaultSize size = 10) ∧
    (0 ≤ size → (defaultSize size : Int) = size) := by
  have main : add_array_arg ptr_size fields name param_id param_type offset
      size = fields ++ (List.range (defaultSize size)).map
        (fun i => (name ++ toString i,
                   array_probe ptr_size offset param_id param_type i)) :=
    add_loop_append (fun i => name ++ toString i)
      (array_probe ptr_size offset param_id param_type)
      (List.range (defaultSize size)) fields h
  refine ⟨main, ?_, fun hs => ?_, fun hs => ?_⟩
  · rw [main]
    simp
  · rw [defaultSize, if_pos hs]
  · rw [defaultSize, if_neg (not_lt.mpr hs)]
    exact Int.toNat_of_nonneg hs

/-- Witness for C2: starting from an empty dictionary, the default size -1
appends exactly ten entries named a0 .. a9. -/
theorem add_array_arg_spec_witness :
    add_array_arg 8 [] ("a") 1 ("u64") 0 (-1) =
      [] ++ (List.range (defaultSize (-1))).map
        (fun i => (("a") ++ toString i, array_probe 8 0 1 ("u64") i)) ∧
    (add_array_arg 8 [] ("a") 1 ("u64") 0 (-1)).length =
      ([] : List (String × String)).length + defaultSize (-1) ∧
    ((-1 : Int) < 0 → defaultSize (-1) = 10) ∧
    (0 ≤ (-1 : Int) → (defaultSize (-1) : Int) = -1) :=
  add_array_arg_spec 8 [] ("a") 1 ("u64") 0 (-1) (by decide)

/-- C2, counterexample to the unconditional claim: on a kprobe whose field
dictionary already contains the name a0, add_array_arg with the default
size -1 performs ten dict writes but the first one overwrites the existing
a0 entry in place, so the dictionary ends with 10 entries, not the 11 the
claimed count (old length plus exactly 10 added fields) would require. -/
theorem add_array_arg_collision_counterexample :
    (add_array_arg 8 [(("a0"), ("old"))] ("a") 1 ("u64") 0 (-1)).length = 10 ∧
    ¬ ((add_array_arg 8 [(("a0"), ("old"))] ("a") 1 ("u64") 0 (-1)).length =
        ([(("a0"), ("old"))] : List (String × String)).length + 10) := by
  decide

lemma getLast?_append_some {α : Type} (l₁ : List α) {l₂ : List α} {a : α}
    (h : l₂.getLast? = some a) : (l₁ ++ l₂).getLast? = some a :=
  List.mem_getLast?_append_of_mem_getLast? h

/-- C4: construction with find=False creates the instance (first call),
marks the object attached and, as the very last native call, issues the
stop (pause) command, so the histogram starts on standby; construction
with find=True looks the instance up, marks the object not attached and
never issues a stop, leaving the run state as found. -/
theorem khist_init_standby (name : String) (ev : eventState)
    (axes weights sort_keys : List String)
    (sort_dir : List (String × String)) (instDir : String) :
    (khist_init name ev axes weights sort_keys sort_dir false
        instDir).2.attached = true ∧
    (khist_init name ev axes weights sort_keys sort_dir false
        instDir).1.head? = some (HistCall.createInstance (name ++ "_inst")) ∧
    (khist_init name ev axes weights sort_keys sort_dir false
        instDir).1.getLast? = some HistCall.histStop ∧
    (khist_init name ev axes weights sort_keys sort_dir true
        instDir).2.attached = false ∧
    (khist_init name ev axes weights sort_keys sort_dir true
        instDir).1.head? = some (HistCall.findInstance (name ++ "_inst")) ∧
    HistCall.histStop ∉
      (khist_init name ev axes weights sort_keys sort_dir true instDir).1 := by
  refine ⟨rfl, rfl, ?_, rfl, rfl, ?_⟩
  · exact getLast?_append_some _ rfl
  · simp [khist_init]

/-- C5: destroying a khist whose attached flag is false issues no native
call at all: no clear, no instance removal; the set of tracefs instances
is untouched, so a later find of the same instance name succeeds exactly
as before.  When the flag is true and an instance is held, the destructor
clears the histogram. -/
theorem khist_del_frame (name iname : String) (inst : Option String)
    (hist : histConfig) (trigger : String) (insts : List String) :
    khist_del { name := name, inst := inst, attached := false,
                hist := hist, trigger := trigger } = [] ∧
    HistCall.histClear ∉
      khist_del { name := name, inst := inst, attached := false,
                  hist := hist, trigger := trigger } ∧
    instancesAfter
      (khist_del { name := name, inst := inst, attached := false,
                   hist := hist, trigger := trigger }) insts = insts ∧
    (iname ∈ instancesAfter
        (khist_del { name := name, inst := inst, attached := false,
                     hist := hist, trigger := trigger }) insts ↔
      iname ∈ insts) ∧
    khist_del { name := name, inst := some iname, attached := true,
                hist := hist, trigger := trigger } = [HistCall.histClear] := by
  refine ⟨?_, ?_, ?_, ?_, ?_⟩ <;>
    simp [khist_del, instancesAfter]

/-- C8: detach drops exactly the attached flag and attach restores it:
after detach is_attached is false, after attach again it is true, and
every other attribute (name, instance, histogram description, trigger
path) is unchanged by both. -/
theorem khist_attach_detach_inverse (s : khistState) :
    is_attached (khist_detach s).2 = false ∧
    is_attached (khist_attach (khist_detach s).2).2 = true ∧
    (khist_detach s).2 = { s with attached := false } ∧
    (khist_attach (khist_detach s).2).2 = { s with attached := true } ∧
    (khist_detach s).2.name = s.name ∧
    (khist_detach s).2.inst = s.inst ∧
    (khist_detach s).2.hist = s.hist ∧
    (khist_detach s).2.trigger = s.trigger ∧
    (khist_attach (khist_detach s).2).2.name = s.name ∧
    (khist_attach (khist_detach s).2).2.inst = s.inst ∧
    (khist_attach (khist_detach s).2).2.hist = s.hist ∧
    (khist_attach (khist_detach s).2).2.trigger = s.trigger :=
  ⟨rfl, rfl, rfl, rfl, rfl, rfl, rfl, rfl, rfl, rfl, rfl, rfl⟩

end FtUtils
